import Mathlib

/-!
Verification of the MCP OAuth2 demo server (TypeScript sources under `src/`).

The development shallowly embeds the authentication/authorization gate
(`src/auth.ts`), the startup configuration derivation (`src/config.ts`) and the
session registry (the unnamed session-manager module) as executable Lean
definitions, and proves the spec's claims about them.

Modelling conventions:
- JavaScript strings are Lean `String`s; all character-level operations
  (lower-casing, splitting, emptiness) are defined over `String.data` so that
  every definition reduces in the kernel.
- JavaScript truthiness of a `string | null | undefined` value is
  `jsTruthyStr`: `none` and the empty string are falsy.
- JSON / dynamic JavaScript values are the inductive `Json`.
- Asynchronous callbacks (JWKS lookups, `jwt.verify`, transport hooks) are
  modelled by passing the callee's outcome as an explicit oracle function or by
  explicit state-transition functions for each hook.
- Object identity of a `SessionContext` is modelled by a numeric object id
  (`oid`) allocated from a counter in `SessState`.
-/

/-- A dynamic JavaScript/JSON value, as far as the gate inspects one. -/
inductive Json where
  | str : String → Json
  | num : Int → Json
  | jbool : Bool → Json
  | null : Json
  | arr : List Json → Json
  | obj : List (String × Json) → Json

/-- JS truthiness of a `string | null | undefined` value: `null`, `undefined`
and `""` are falsy. -/
def jsTruthyStr : Option String → Bool
  | some s => !s.data.isEmpty
  | none => false

/-- Nonemptiness of a string, i.e. what `.filter(Boolean)` keeps. -/
def strNonEmpty (t : String) : Bool := !t.data.isEmpty

/-- ASCII lower-casing of one character, as `String.prototype.toLowerCase`
acts on the basic-latin characters that appear in roles and scopes. -/
def lowerChar (c : Char) : Char :=
  if 65 ≤ c.toNat ∧ c.toNat ≤ 90 then Char.ofNat (c.toNat + 32) else c

/-- Model of `s.toLowerCase()`. -/
def jsToLower (s : String) : String := ⟨s.data.map lowerChar⟩

/-- Characters matched by the configured-list separator regex of
`config.ts` (comma or whitespace). -/
def isDelimChar (c : Char) : Bool := c == ',' || c.isWhitespace

/-- Characters matched by the scope separator regex of `auth.ts`
(whitespace). -/
def wsChar (c : Char) : Bool := c.isWhitespace

/-- Split a character list at every delimiter character, keeping empty
pieces (the building block for the JS `split` model). -/
def splitChars (p : Char → Bool) : List Char → List (List Char)
  | [] => [[]]
  | c :: cs =>
    if p c then [] :: splitChars p cs
    else
      match splitChars p cs with
      | [] => [[c]]
      | t :: ts => (c :: t) :: ts

/-- The nonempty pieces of a character list split at delimiter characters. -/
def tokensOfChars (p : Char → Bool) (l : List Char) : List String :=
  ((splitChars p l).map (fun t => (⟨t⟩ : String))).filter strNonEmpty

/-- Model of JS `s.split(re)` where `re` is a character class with a `+`
quantifier (such as the source's scope and list separators): maximal
delimiter runs separate the pieces, a leading (resp. trailing) delimiter
contributes a leading (resp. trailing) empty piece, and the empty string
splits to one empty piece. -/
def jsSplitPlusChars (p : Char → Bool) : List Char → List String
  | [] => [""]
  | c :: cs =>
    let toks := tokensOfChars p (c :: cs)
    let withLead := if p c then "" :: toks else toks
    if p ((c :: cs).getLast (List.cons_ne_nil c cs)) then withLead ++ [""] else withLead

/-- JS `s.split(re)` for a one-character-class `+` regex, on a string. -/
def jsSplitPlus (p : Char → Bool) (s : String) : List String :=
  jsSplitPlusChars p s.data

/-- The nonempty tokens of a string split at delimiter characters. -/
def splitTokens (p : Char → Bool) (s : String) : List String :=
  tokensOfChars p s.data

/-- Model of `new Set(list)` iteration order for strings: first occurrences
are kept, later duplicates dropped. -/
def jsSetAux (seen : List String) : List String → List String
  | [] => []
  | x :: xs => if seen.contains x then jsSetAux seen xs else x :: jsSetAux (x :: seen) xs

/-- `Array.from(new Set(list))`. -/
def jsSetOfList (l : List String) : List String := jsSetAux [] l

/-! ### `src/config.ts` -/

/-- Source `config.ts`: default scopes used when `ALLOWED_SCOPES` is not
configured. -/
def defaultScopes : List String := ["Mcp.Access", "access_as_mcp"]

/-- Source `config.ts`: default roles used when `ALLOWED_ROLES` is not
configured. -/
def defaultRoles : List String := ["McpServer.Invoke", "McpServer.Read", "McpServer.Write"]

/-- Source `config.ts` `toConfiguredSet`: split the raw environment value (or
use the fallback when the raw value is absent or empty, hence falsy), drop
empty items, lower-case, and collect into a `Set`. -/
def toConfiguredSet (raw : Option String) (fallback : List String) : List String :=
  let items :=
    match raw with
    | some r => if r.data.isEmpty then fallback else jsSplitPlus isDelimChar r
    | none => fallback
  jsSetOfList ((items.filter strNonEmpty).map jsToLower)

/-- The slice of the startup configuration the claims depend on. -/
structure Config where
  allowedScopes : List String
  allowedRoles : List String
deriving DecidableEq

/-- Source `config.ts`: derive the two policy sets from the environment
values `ALLOWED_SCOPES` and `ALLOWED_ROLES`. -/
def mkConfig (allowedScopesEnv allowedRolesEnv : Option String) : Config :=
  ⟨toConfiguredSet allowedScopesEnv defaultScopes,
   toConfiguredSet allowedRolesEnv defaultRoles⟩

/-! ### `src/auth.ts` -/

mutual

/-- Model of the JS `String(v)` coercion for the values that can occur inside
a decoded claims object: strings are themselves, primitives print as in JS,
arrays join their elements with commas, objects print their default tag. -/
def jsValToString : Json → String
  | .str s => s
  | .num n => toString n
  | .jbool b => if b then "true" else "false"
  | .null => "null"
  | .obj _ => "[object Object]"
  | .arr xs => String.intercalate "," (jsArrStrings xs)

/-- Elementwise stringification inside an array: JS `Array.prototype.join`
renders a `null` element as the empty string. -/
def jsArrStrings : List Json → List String
  | [] => []
  | x :: xs => (match x with | .null => "" | _ => jsValToString x) :: jsArrStrings xs

end

/-- The two claim fields `authorize` reads from a `VerifiedClaims` object;
`none` is an absent field, and a present field may hold any dynamic value. -/
structure VerifiedClaims where
  roles : Option Json
  scp : Option Json

/-- Source `auth.ts` line 36: `Array.isArray(claims?.roles) ? claims.roles : []`. -/
def rolesValue (c : VerifiedClaims) : List Json :=
  match c.roles with
  | some (.arr xs) => xs
  | _ => []

/-- Source `auth.ts` line 37:
`typeof claims?.scp === "string" ? claims.scp.split(re) : []` where `re`
matches whitespace runs. -/
def scpSplit (c : VerifiedClaims) : List String :=
  match c.scp with
  | some (.str s) => jsSplitPlus wsChar s
  | _ => []

/-- Source `auth.ts` `authorize`: allow when some role, stringified and
lower-cased, is in the allowed-roles set, or some scope piece, lower-cased,
is in the allowed-scopes set. -/
def authorize (cfg : Config) (claims : VerifiedClaims) : Bool :=
  let roles := rolesValue claims
  let scopes := scpSplit claims
  let roleOk := roles.any (fun r => cfg.allowedRoles.contains (jsToLower (jsValToString r)))
  let scopeOk := scopes.any (fun s => cfg.allowedScopes.contains (jsToLower s))
  roleOk || scopeOk

/-- An HTTP response the gate can produce: status code and JSON body. -/
structure HttpResponse where
  status : Nat
  body : Json

/-- What the `verifyBearer` middleware does with a request: reject it with a
response, or attach the verified claims and call `next()`. -/
inductive GateOutcome where
  | reject : HttpResponse → GateOutcome
  | proceed : VerifiedClaims → GateOutcome

/-- Source `auth.ts` lines 46 and 47: extract the bearer token from the
`Authorization` header (`null` when the header does not start with
`Bearer` and a space). -/
def tokenOf (authorizationHeader : Option String) : Option String :=
  let auth := authorizationHeader.getD ""
  if ("Bearer ".data).isPrefixOf auth.data then some ⟨auth.data.drop 7⟩ else none

/-- Source `auth.ts` line 71: `typeof decoded === "object" ? decoded : {}`,
followed by the optional-chained field reads of `roles` and `scp`. A decoded
`null` also has `typeof "object"` but both its optional-chained reads give
`undefined`. -/
def claimsOfDecoded (decoded : Json) : VerifiedClaims :=
  match decoded with
  | .obj fields => ⟨(fields.find? (fun p => p.1 == "roles")).map Prod.snd,
                    (fields.find? (fun p => p.1 == "scp")).map Prod.snd⟩
  | _ => ⟨none, none⟩

/-- Source `auth.ts` lines 83 to 93: the `403` body, with the scope list
additionally `.filter(Boolean)`-ed and the expected sets spread from the
configured `Set`s. -/
def forbiddenBody (cfg : Config) (claims : VerifiedClaims) : Json :=
  let scopeList := (scpSplit claims).filter strNonEmpty
  let roleList := rolesValue claims
  .obj [("error", .str "Insufficient permissions"),
        ("detail", .obj
          [("roles", .arr roleList),
           ("scopes", .arr (scopeList.map .str)),
           ("expected", .obj
             [("anyRoleIn", .arr (cfg.allowedRoles.map .str)),
              ("anyScopeIn", .arr (cfg.allowedScopes.map .str))])])]

/-- Source `auth.ts` `verifyBearer`.  The combined signature check, key
resolution and claim validation performed by `jwt.verify` (the only network
activity of the gate) is abstracted as the oracle `verify`, mapping the token
to either an error message or the decoded payload. -/
def verifyBearer (cfg : Config) (authorizationHeader : Option String)
    (verify : String → Except String Json) : GateOutcome :=
  let token := tokenOf authorizationHeader
  if jsTruthyStr token then
    match verify (token.getD "") with
    | .error msg => .reject ⟨401, .obj [("error", .str "Invalid token"), ("detail", .str msg)]⟩
    | .ok decoded =>
      let claims := claimsOfDecoded decoded
      if authorize cfg claims then .proceed claims
      else .reject ⟨403, forbiddenBody cfg claims⟩
  else .reject ⟨401, .obj [("error", .str "Missing bearer token")]⟩

/-- Outcome of one `jwks-rsa` `getSigningKey` callback: an optional error and
an optional key (whose `getPublicKey()` material is the string). -/
structure SigningKeyResult where
  err : Option String
  key : Option String
deriving DecidableEq

/-- A key-set source fails for an id when it reports an error or returns no
key — the exact condition under which `getKey` falls back. -/
def sourceFails (r : SigningKeyResult) : Bool := r.err.isSome || r.key.isNone

/-- Source `auth.ts` `getKey`: try the v2 JWKS client, and when it errors or
yields no key, fall back to the v1 client.  The result is the value passed to
the `SigningKeyCallback`: `some (.ok k)` for `cb(null, k)`, `some (.error e)`
for `cb(e)`, and `none` when the callback is never invoked because
`key2.getPublicKey()` throws on an absent key. -/
def getKey (jwksV2 jwksV1 : String → SigningKeyResult) (kid : String) :
    Option (Except String String) :=
  match (jwksV2 kid).err, (jwksV2 kid).key with
  | none, some k => some (.ok k)
  | _, _ =>
    match (jwksV1 kid).err with
    | some e2 => some (.error e2)
    | none =>
      match (jwksV1 kid).key with
      | some k2 => some (.ok k2)
      | none => none

/-! ### Session manager (unnamed source module) -/

/-- The raw `mcp-session-id` header as Node delivers it:
`string | string[] | undefined`. -/
inductive HeaderValue where
  | str : String → HeaderValue
  | arr : List String → HeaderValue
  | undef : HeaderValue
deriving DecidableEq

/-- Source `normalizeSessionId`: an array header keeps its first element,
otherwise the value itself (`undefined` stays absent). -/
def normalizeSessionId : HeaderValue → Option String
  | .arr xs => xs.head?
  | .str s => some s
  | .undef => none

/-- Session-manager state: the registry map from session id to context, the
heap of allocated `SessionContext` objects (object id paired with the
context's `id` field), and the allocator for object identities. -/
structure SessState where
  sessions : List (String × Nat)
  contexts : List (Nat × Option String)
  nextOid : Nat
deriving DecidableEq

/-- `Map.prototype.get`. -/
def mapLookup (m : List (String × Nat)) (k : String) : Option Nat :=
  (m.find? (fun p => p.1 == k)).map Prod.snd

/-- `Map.prototype.set`: overwrite in place, or append a new entry. -/
def mapSet (m : List (String × Nat)) (k : String) (v : Nat) : List (String × Nat) :=
  if m.any (fun p => p.1 == k) then m.map (fun p => if p.1 == k then (k, v) else p)
  else m ++ [(k, v)]

/-- `Map.prototype.delete`. -/
def mapDelete (m : List (String × Nat)) (k : String) : List (String × Nat) :=
  m.filter (fun p => p.1 != k)

/-- The `id` field of the context object `oid`, when that object exists. -/
def ctxId (st : SessState) (oid : Nat) : Option (Option String) :=
  (st.contexts.find? (fun p => p.1 == oid)).map Prod.snd

/-- The state of a freshly started process: empty registry, no contexts. -/
def emptySessState : SessState := ⟨[], [], 0⟩

/-- Source `createSession`: allocate a new `SessionContext` with no id yet.
The registry is not touched — registration happens only in the transport's
`onsessioninitialized` hook. -/
def createSession (st : SessState) : SessState × Nat :=
  ({ st with contexts := st.contexts ++ [(st.nextOid, none)], nextOid := st.nextOid + 1 },
   st.nextOid)

/-- Source `onsessioninitialized` hook for context `oid`: store the
server-generated id on the context and, when the id is truthy, register the
context under it. -/
def onSessionInitialized (st : SessState) (oid : Nat) (sessionId : String) : SessState :=
  let contexts := st.contexts.map (fun p => if p.1 == oid then (p.1, some sessionId) else p)
  if sessionId.data.isEmpty then { st with contexts := contexts }
  else { st with contexts := contexts, sessions := mapSet st.sessions sessionId oid }

/-- Source `onsessionclosed` hook: when the reported id is truthy, drop it
from the registry. -/
def onSessionClosed (st : SessState) (sessionId : String) : SessState :=
  if sessionId.data.isEmpty then st
  else { st with sessions := mapDelete st.sessions sessionId }

/-- Source `transport.onclose` hook for context `oid`: when the context has a
truthy id, drop that id from the registry. -/
def onTransportClose (st : SessState) (oid : Nat) : SessState :=
  match ctxId st oid with
  | some (some cid) =>
    if cid.data.isEmpty then st else { st with sessions := mapDelete st.sessions cid }
  | _ => st

/-- The transport's close signal for the session owned by context `oid`: the
transport reports closure of its session id through `onsessionclosed`, and
its `onclose` hook runs.  Both resolve to the context's assigned id. -/
def closeSignal (st : SessState) (oid : Nat) : SessState :=
  let st1 :=
    match ctxId st oid with
    | some (some cid) => onSessionClosed st cid
    | _ => st
  onTransportClose st1 oid

/-- Source `sessionNotFound`: the JSON-RPC error body sent with status 404. -/
def sessionNotFoundBody : Json :=
  .obj [("jsonrpc", .str "2.0"),
        ("error", .obj [("code", .num (-32001)), ("message", .str "Session not found")]),
        ("id", .null)]

/-- What one call of `handleMcpRequest` does: answer directly with a response,
or dispatch the body into the transport of the session context `oid`. -/
inductive McpOutcome where
  | respond : HttpResponse → McpOutcome
  | dispatch : Nat → McpOutcome

/-- Source `handleMcpRequest`: resolve the session named by the header (a
falsy normalized id looks nothing up), reject unknown truthy ids with the 404
body, create a session when none was resolved, and dispatch into the resolved
or created context's transport. -/
def handleMcpRequest (st : SessState) (h : HeaderValue) : SessState × McpOutcome :=
  let incomingSessionId := normalizeSessionId h
  let session : Option Nat :=
    if jsTruthyStr incomingSessionId then mapLookup st.sessions (incomingSessionId.getD "")
    else none
  if jsTruthyStr incomingSessionId && session.isNone then
    (st, .respond ⟨404, sessionNotFoundBody⟩)
  else
    match session with
    | some oid => (st, .dispatch oid)
    | none =>
      let created := createSession st
      (created.1, .dispatch created.2)

/-! ### Definitions taken from the specification's words

These restate the spec's description of the authorization decision and of the
403 diagnostics, to be compared with the definitions embedded from the
source. -/

/-- Case-insensitive string matching, as the spec's "matches
case-insensitively". -/
def ciMatch (x e : String) : Bool := jsToLower x == jsToLower e

/-- Spec: the value matches some entry of the set case-insensitively. -/
def ciMemb (x : String) (set : List String) : Bool := set.any (fun e => ciMatch x e)

/-- Spec: "the roles claim list (empty if the claim is absent)". -/
def specRoles (c : VerifiedClaims) : List Json :=
  match c.roles with
  | some (.arr xs) => xs
  | _ => []

/-- Spec: "the tokens of the scope claim string split on whitespace (empty if
absent)". -/
def specScopeTokens (c : VerifiedClaims) : List String :=
  match c.scp with
  | some (.str s) => splitTokens wsChar s
  | _ => []

/-- Spec 4.3: allow iff some role is in the allowed-roles set
case-insensitively, or some scope token is in the allowed-scopes set
case-insensitively. -/
def specAllow (cfg : Config) (c : VerifiedClaims) : Bool :=
  (specRoles c).any (fun r => ciMemb (jsValToString r) cfg.allowedRoles)
  || (specScopeTokens c).any (fun s => ciMemb s cfg.allowedScopes)

/-- A configured environment value that actually names at least one item:
absent, empty (both fall back to the defaults) or containing some
non-delimiter character. -/
def envNamesItem : Option String → Prop
  | none => True
  | some s => s.data = [] ∨ ∃ c ∈ s.data, isDelimChar c = false

/-! ### Helper lemmas -/

theorem toNat_lowerChar_of (c : Char) (h : 65 ≤ c.toNat ∧ c.toNat ≤ 90) :
    (lowerChar c).toNat = c.toNat + 32 := by
  unfold lowerChar
  rw [if_pos h, Char.ofNat, dif_pos]
  · rfl
  · exact Or.inl (by omega)

theorem lowerChar_of_not (c : Char) (h : ¬(65 ≤ c.toNat ∧ c.toNat ≤ 90)) :
    lowerChar c = c := by
  unfold lowerChar
  exact if_neg h

theorem lowerChar_idem (c : Char) : lowerChar (lowerChar c) = lowerChar c := by
  by_cases h : 65 ≤ c.toNat ∧ c.toNat ≤ 90
  · apply lowerChar_of_not
    rw [toNat_lowerChar_of c h]
    omega
  · rw [lowerChar_of_not c h, lowerChar_of_not c h]

theorem jsToLower_idem (s : String) : jsToLower (jsToLower s) = jsToLower s := by
  unfold jsToLower
  have : (⟨s.data.map lowerChar⟩ : String).data = s.data.map lowerChar := rfl
  rw [this, List.map_map]
  have hcomp : lowerChar ∘ lowerChar = lowerChar := funext lowerChar_idem
  rw [hcomp]

theorem jsToLower_data : (jsToLower s).data = s.data.map lowerChar := rfl

theorem jsToLower_data_nil_iff (s : String) : (jsToLower s).data = [] ↔ s.data = [] := by
  rw [jsToLower_data]
  exact List.map_eq_nil_iff

theorem splitChars_ne_nil (p : Char → Bool) (l : List Char) : splitChars p l ≠ [] := by
  cases l with
  | nil => simp [splitChars]
  | cons c cs =>
    simp only [splitChars]
    split
    · simp
    · split <;> simp

theorem mem_tokensOfChars_nonEmpty {p : Char → Bool} {l : List Char} {t : String}
    (h : t ∈ tokensOfChars p l) : strNonEmpty t = true :=
  (List.mem_filter.mp h).2

theorem tokensOfChars_filter_self (p : Char → Bool) (l : List Char) :
    (tokensOfChars p l).filter strNonEmpty = tokensOfChars p l :=
  List.filter_eq_self.mpr (fun _ ht => mem_tokensOfChars_nonEmpty ht)

theorem tokensOfChars_ne_nil {p : Char → Bool} {l : List Char}
    (h : ∃ c ∈ l, p c = false) : tokensOfChars p l ≠ [] := by
  induction l with
  | nil => rcases h with ⟨c, hc, _⟩; cases hc
  | cons c cs ih =>
    cases hp : p c with
    | true =>
      have h' : ∃ d ∈ cs, p d = false := by
        rcases h with ⟨d, hd, hdp⟩
        rcases List.mem_cons.mp hd with rfl | hmem
        · rw [hp] at hdp; cases hdp
        · exact ⟨d, hmem, hdp⟩
      have hne := ih h'
      unfold tokensOfChars at hne ⊢
      simpa [splitChars, hp, strNonEmpty] using hne
    | false =>
      unfold tokensOfChars
      rcases hsc : splitChars p cs with _ | ⟨t, ts⟩
      · exact absurd hsc (splitChars_ne_nil p cs)
      · simp [splitChars, hp, hsc, strNonEmpty]

theorem filter_jsSplitPlusChars (p : Char → Bool) (l : List Char) :
    (jsSplitPlusChars p l).filter strNonEmpty = tokensOfChars p l := by
  cases l with
  | nil => simp [jsSplitPlusChars, tokensOfChars, splitChars, strNonEmpty]
  | cons c cs =>
    simp only [jsSplitPlusChars]
    split <;> split <;>
      simp [List.filter_append, List.filter_cons, strNonEmpty, tokensOfChars_filter_self]

theorem any_jsSplitPlusChars (p : Char → Bool) (l : List Char) (q : String → Bool)
    (hq : q "" = false) :
    (jsSplitPlusChars p l).any q = (tokensOfChars p l).any q := by
  cases l with
  | nil => simp [jsSplitPlusChars, tokensOfChars, splitChars, strNonEmpty, hq]
  | cons c cs =>
    simp only [jsSplitPlusChars]
    split <;> split <;> simp [List.any_append, List.any_cons, hq]

theorem mem_of_mem_jsSetAux {x : String} {seen l : List String}
    (h : x ∈ jsSetAux seen l) : x ∈ l := by
  induction l generalizing seen with
  | nil => cases h
  | cons y ys ih =>
    unfold jsSetAux at h
    by_cases hc : seen.contains y = true
    · rw [if_pos hc] at h
      exact List.mem_cons_of_mem y (ih h)
    · rw [if_neg hc] at h
      rcases List.mem_cons.mp h with rfl | hmem
      · exact List.mem_cons_self x ys
      · exact List.mem_cons_of_mem y (ih hmem)

theorem jsSetOfList_ne_nil {l : List String} (h : l ≠ []) : jsSetOfList l ≠ [] := by
  cases l with
  | nil => exact absurd rfl h
  | cons x xs => simp [jsSetOfList, jsSetAux]

theorem mem_toConfiguredSet {x : String} {raw : Option String} {fallback : List String}
    (h : x ∈ toConfiguredSet raw fallback) : jsToLower x = x ∧ x.data ≠ [] := by
  unfold toConfiguredSet at h
  have hmem : x ∈ ((match raw with
      | some r => if r.data.isEmpty then fallback else jsSplitPlus isDelimChar r
      | none => fallback).filter strNonEmpty).map jsToLower := mem_of_mem_jsSetAux h
  rcases List.mem_map.mp hmem with ⟨y, hy, rfl⟩
  have hyne : strNonEmpty y = true := (List.mem_filter.mp hy).2
  refine ⟨jsToLower_idem y, ?_⟩
  rw [jsToLower_data]
  intro hnil
  rw [List.map_eq_nil_iff] at hnil
  rw [strNonEmpty, hnil] at hyne
  simp at hyne

theorem list_any_congr {α : Type} {l : List α} {f g : α → Bool}
    (h : ∀ x ∈ l, f x = g x) : l.any f = l.any g := by
  induction l with
  | nil => rfl
  | cons x xs ih =>
    simp only [List.any_cons, h x (List.mem_cons_self x xs),
      ih (fun a ha => h a (List.mem_cons_of_mem x ha))]

theorem contains_jsToLower_eq_ciMemb {set : List String}
    (hset : ∀ e ∈ set, jsToLower e = e) (x : String) :
    set.contains (jsToLower x) = ciMemb x set := by
  rw [List.contains_eq_any_beq]
  unfold ciMemb ciMatch
  exact list_any_congr (fun e he => by rw [hset e he])

theorem contains_empty_eq_false {set : List String}
    (hset : ∀ e ∈ set, e.data ≠ []) : set.contains "" = false := by
  rw [List.contains_eq_any_beq]
  rw [List.any_eq_false]
  intro e he
  have := hset e he
  simp only [beq_iff_eq]
  intro hcontra
  rw [← hcontra] at this
  exact this rfl

theorem mapLookup_mapSet_self (m : List (String × Nat)) (k : String) (v : Nat) :
    mapLookup (mapSet m k v) k = some v := by
  unfold mapSet
  by_cases h : m.any (fun p => p.1 == k) = true
  · rw [if_pos h]
    induction m with
    | nil => simp at h
    | cons q qs ih =>
      cases hq : (q.1 == k) with
      | true => simp [mapLookup, List.find?, hq]
      | false =>
        have h' : qs.any (fun p => p.1 == k) = true := by
          rcases List.any_eq_true.mp h with ⟨p, hp, hpk⟩
          rcases List.mem_cons.mp hp with rfl | hmem
          · rw [hq] at hpk; cases hpk
          · exact List.any_eq_true.mpr ⟨p, hmem, hpk⟩
        have := ih h'
        simpa [mapLookup, List.find?, hq] using this
  · rw [if_neg h]
    have hstop : ∀ p ∈ m, (p.1 == k) = false := by
      intro p hp
      cases hpk : (p.1 == k) with
      | true => exact absurd (List.any_eq_true.mpr ⟨p, hp, hpk⟩) h
      | false => rfl
    unfold mapLookup
    rw [List.find?_append]
    have hnone : m.find? (fun p => p.1 == k) = none :=
      List.find?_eq_none.mpr (fun p hp => by rw [hstop p hp]; simp)
    rw [hnone]
    simp [List.find?]

theorem mapDelete_mapDelete (m : List (String × Nat)) (k : String) :
    mapDelete (mapDelete m k) k = mapDelete m k :=
  List.filter_eq_self.mpr (fun _ hp => (List.mem_filter.mp hp).2)

theorem mapLookup_mapDelete_ne (m : List (String × Nat)) (k k' : String) (h : k' ≠ k) :
    mapLookup (mapDelete m k) k' = mapLookup m k' := by
  unfold mapLookup mapDelete
  induction m with
  | nil => rfl
  | cons q qs ih =>
    by_cases hq : q.1 = k
    · have h1 : (q.1 != k) = false := by simp [hq]
      have h2 : (q.1 == k') = false := by
        subst hq
        simp only [beq_eq_false_iff_ne]
        exact fun he => h he.symm
      simp only [List.filter_cons, h1, Bool.false_eq_true, if_false, List.find?, h2]
      exact ih
    · have h1 : (q.1 != k) = true := by simp [hq]
      simp only [List.filter_cons, h1, if_true, List.find?]
      cases hq' : (q.1 == k') with
      | true => rfl
      | false => exact ih

theorem length_mapDelete {m : List (String × Nat)} {k : String} {v : Nat}
    (hfound : mapLookup m k = some v) (hnd : (m.map Prod.fst).Nodup) :
    (mapDelete m k).length + 1 = m.length := by
  induction m with
  | nil => cases hfound
  | cons q qs ih =>
    rw [List.map_cons, List.nodup_cons] at hnd
    by_cases hq : q.1 = k
    · have h1 : (q.1 != k) = false := by simp [hq]
      have hrest : mapDelete qs k = qs := by
        apply List.filter_eq_self.mpr
        intro p hp
        simp only [bne_iff_ne, ne_eq]
        intro hpk
        apply hnd.1
        rw [hq, ← hpk]
        exact List.mem_map_of_mem Prod.fst hp
      unfold mapDelete
      rw [List.filter_cons, h1]
      simp only [Bool.false_eq_true, if_false]
      rw [show qs.filter (fun p => p.1 != k) = mapDelete qs k from rfl, hrest,
        List.length_cons]
    · have h1 : (q.1 != k) = true := by simp [hq]
      have hq2 : (q.1 == k) = false := by simp [hq]
      rw [mapLookup] at hfound
      rw [List.find?_cons_of_neg _ (by simp [hq2])] at hfound
      have := ih hfound hnd.2
      unfold mapDelete at this ⊢
      rw [List.filter_cons, h1]
      simp only [if_true, List.length_cons]
      omega

theorem jsToLower_empty : jsToLower "" = "" := rfl

theorem authorize_eq_specAllow_of (cfg : Config)
    (hrl : ∀ e ∈ cfg.allowedRoles, jsToLower e = e)
    (hsl : ∀ e ∈ cfg.allowedScopes, jsToLower e = e)
    (hse : ∀ e ∈ cfg.allowedScopes, e.data ≠ []) (c : VerifiedClaims) :
    authorize cfg c = specAllow cfg c := by
  have hroles : specRoles c = rolesValue c := rfl
  simp only [authorize, specAllow, hroles]
  congr 1
  · exact list_any_congr (fun r _ => contains_jsToLower_eq_ciMemb hrl (jsValToString r))
  · unfold scpSplit specScopeTokens
    rcases c.scp with _ | j
    · rfl
    · cases j with
      | str s =>
        unfold jsSplitPlus splitTokens
        rw [any_jsSplitPlusChars wsChar s.data _ (by
          show cfg.allowedScopes.contains (jsToLower "") = false
          rw [jsToLower_empty]
          exact contains_empty_eq_false hse)]
        exact list_any_congr (fun t _ => contains_jsToLower_eq_ciMemb hsl t)
      | num n => rfl
      | jbool b => rfl
      | null => rfl
      | arr xs => rfl
      | obj fs => rfl

/-! ### Claim theorems -/

/-- C1: for every claims object, the authorization decision of `authorize`
under a configuration derived by `config.ts` is allow exactly when some
element of the roles claim list (empty if absent) matches an entry of the
configured allowed-roles set case-insensitively, or some token of the scope
claim string split on whitespace (empty if absent) matches an entry of the
configured allowed-scopes set case-insensitively — the spec's OR semantics
`specAllow`: either axis suffices, and a claims object matching neither axis
is denied. -/
theorem c1_authorize_or_semantics (sEnv rEnv : Option String) (c : VerifiedClaims) :
    authorize (mkConfig sEnv rEnv) c = specAllow (mkConfig sEnv rEnv) c :=
  authorize_eq_specAllow_of (mkConfig sEnv rEnv)
    (fun _ he => (mem_toConfiguredSet he).1)
    (fun _ he => (mem_toConfiguredSet he).1)
    (fun _ he => (mem_toConfiguredSet he).2) c

theorem rolesValue_not_arr {j : Json} (h : ∀ xs, j ≠ .arr xs) (scpVal : Option Json) :
    rolesValue ⟨some j, scpVal⟩ = [] := by
  cases j <;> first | rfl | exact absurd rfl (h _)

theorem scpSplit_not_str {j : Json} (h : ∀ s, j ≠ .str s) (rolesVal : Option Json) :
    scpSplit ⟨rolesVal, some j⟩ = [] := by
  cases j <;> first | rfl | exact absurd rfl (h _)

theorem filter_scpSplit (c : VerifiedClaims) :
    (scpSplit c).filter strNonEmpty = specScopeTokens c := by
  unfold scpSplit specScopeTokens
  rcases c.scp with _ | j
  · rfl
  · cases j with
    | str s => exact filter_jsSplitPlusChars wsChar s.data
    | num n => rfl
    | jbool b => rfl
    | null => rfl
    | arr xs => rfl
    | obj fs => rfl

/-- C3: a request whose `Authorization` header is absent or does not start
with the string `Bearer` followed by a space is rejected by `verifyBearer`
with status 401 and the missing-bearer-token body, whatever verification
oracle is installed — and the outcome does not depend on the oracle at all,
so no token verification, key resolution or outbound network call happens. -/
theorem c3_no_token_fast_reject (cfg : Config) (authorizationHeader : Option String)
    (h : authorizationHeader = none ∨
      ("Bearer ".data).isPrefixOf (authorizationHeader.getD "").data = false) :
    (∀ verify, verifyBearer cfg authorizationHeader verify =
      .reject ⟨401, .obj [("error", .str "Missing bearer token")]⟩) ∧
    (∀ v₁ v₂, verifyBearer cfg authorizationHeader v₁ =
      verifyBearer cfg authorizationHeader v₂) := by
  have htok : tokenOf authorizationHeader = none := by
    unfold tokenOf
    rcases h with rfl | hpre
    · have hfalse : ("Bearer ".data).isPrefixOf ((none : Option String).getD "").data = false := by
        decide
      simp [hfalse]
    · simp [hpre]
  constructor
  · intro verify
    unfold verifyBearer
    rw [htok]
    rfl
  · intro v₁ v₂
    unfold verifyBearer
    rw [htok]
    rfl

/-- C3 witness: a concrete request with no `Authorization` header is
rejected 401 with the missing-bearer-token body under the default
configuration and an arbitrary concrete oracle. -/
theorem c3_no_token_fast_reject_witness :
    verifyBearer (mkConfig none none) none (fun _ => .ok (.obj [])) =
      .reject ⟨401, .obj [("error", .str "Missing bearer token")]⟩ :=
  (c3_no_token_fast_reject (mkConfig none none) none (Or.inl rfl)).1 (fun _ => .ok (.obj []))

/-- C10: the authorization decision is a total function of the claims
object; a roles claim that is not an array behaves exactly as an absent
roles claim, a scope claim that is not a string behaves exactly as an
absent scope claim, and a claims object with both claims malformed is
denied. -/
theorem c10_malformed_claims_denied (cfg : Config) (jr js : Json)
    (hr : ∀ xs, jr ≠ .arr xs) (hs : ∀ s, js ≠ .str s) :
    (∀ scpVal, authorize cfg ⟨some jr, scpVal⟩ = authorize cfg ⟨none, scpVal⟩)
    ∧ (∀ rolesVal, authorize cfg ⟨rolesVal, some js⟩ = authorize cfg ⟨rolesVal, none⟩)
    ∧ authorize cfg ⟨some jr, some js⟩ = false := by
  refine ⟨fun scpVal => ?_, fun rolesVal => ?_, ?_⟩
  · simp only [authorize, rolesValue_not_arr hr]
    rfl
  · simp only [authorize, scpSplit_not_str hs]
    have h1 : scpSplit ⟨rolesVal, none⟩ = [] := rfl
    have h2 : rolesValue ⟨rolesVal, some js⟩ = rolesValue ⟨rolesVal, none⟩ := by
      unfold rolesValue
      rfl
    rw [h1, h2]
  · simp only [authorize, rolesValue_not_arr hr, scpSplit_not_str hs]
    rfl

/-- C10 witness: a claims object whose roles claim is the number 3 and whose
scope claim is the boolean true is denied under the default configuration. -/
theorem c10_malformed_claims_denied_witness :
    authorize (mkConfig none none) ⟨some (.num 3), some (.jbool true)⟩ = false :=
  (c10_malformed_claims_denied (mkConfig none none) (.num 3) (.jbool true)
    (fun _ h => Json.noConfusion h) (fun _ h => Json.noConfusion h)).2.2

/-- C7: when the bearer token is present and the oracle verifies it to the
decoded payload `decoded`, but `authorize` denies the extracted claims, the
gate rejects with status 403 and the insufficient-permissions body whose
`roles` field is the claim's actual role list, whose `scopes` field is the
whitespace-split token list of the scope claim, and whose
`expected.anyRoleIn` and `expected.anyScopeIn` are exactly the configured
allowed-roles and allowed-scopes sets. -/
theorem c7_forbidden_response (sEnv rEnv : Option String)
    (authorizationHeader : Option String) (decoded : Json)
    (htok : jsTruthyStr (tokenOf authorizationHeader) = true)
    (hdeny : authorize (mkConfig sEnv rEnv) (claimsOfDecoded decoded) = false) :
    verifyBearer (mkConfig sEnv rEnv) authorizationHeader (fun _ => .ok decoded) =
      .reject ⟨403, .obj
        [("error", .str "Insufficient permissions"),
         ("detail", .obj
           [("roles", .arr (specRoles (claimsOfDecoded decoded))),
            ("scopes", .arr ((specScopeTokens (claimsOfDecoded decoded)).map .str)),
            ("expected", .obj
              [("anyRoleIn", .arr ((mkConfig sEnv rEnv).allowedRoles.map .str)),
               ("anyScopeIn", .arr ((mkConfig sEnv rEnv).allowedScopes.map .str))])])]⟩ := by
  unfold verifyBearer
  simp only [htok, if_true, hdeny, Bool.false_eq_true, if_false]
  unfold forbiddenBody
  rw [filter_scpSplit]
  rfl

/-- C7 witness: under the default configuration, a verified token whose
roles are `["intruder"]` and whose scope string is `other.scope` is rejected
403 with the expected sets equal to the configured default sets. -/
theorem c7_forbidden_response_witness :
    verifyBearer (mkConfig none none) (some "Bearer tok")
      (fun _ => .ok (.obj [("roles", .arr [.str "intruder"]), ("scp", .str "other.scope")])) =
      .reject ⟨403, .obj
        [("error", .str "Insufficient permissions"),
         ("detail", .obj
           [("roles", .arr (specRoles (claimsOfDecoded
               (.obj [("roles", .arr [.str "intruder"]), ("scp", .str "other.scope")])))),
            ("scopes", .arr ((specScopeTokens (claimsOfDecoded
               (.obj [("roles", .arr [.str "intruder"]), ("scp", .str "other.scope")]))).map .str)),
            ("expected", .obj
              [("anyRoleIn", .arr ((mkConfig none none).allowedRoles.map .str)),
               ("anyScopeIn", .arr ((mkConfig none none).allowedScopes.map .str))])])]⟩ :=
  c7_forbidden_response none none (some "Bearer tok")
    (.obj [("roles", .arr [.str "intruder"]), ("scp", .str "other.scope")])
    (by decide) (by decide)

/-- C4: key resolution asks the primary (v2) JWKS source first; the fallback
source cannot influence the result when the primary succeeds; when the
primary fails (error or no key) and the secondary succeeds, resolution
returns the secondary's key; the callback is always invoked when the
secondary source honours the callback contract (an error or a key); and a
resolution failure is signalled exactly when both sources fail. -/
theorem c4_key_resolution_fallback (jwksV2 jwksV1 : String → SigningKeyResult) (kid : String)
    (hwf : (jwksV1 kid).err.isSome ∨ (jwksV1 kid).key.isSome) :
    (∀ k, (jwksV2 kid).err = none → (jwksV2 kid).key = some k →
        getKey jwksV2 jwksV1 kid = some (.ok k) ∧
        ∀ w1, getKey jwksV2 w1 kid = some (.ok k))
    ∧ (sourceFails (jwksV2 kid) = true →
        (jwksV1 kid).err = none → ∀ k2, (jwksV1 kid).key = some k2 →
        getKey jwksV2 jwksV1 kid = some (.ok k2))
    ∧ getKey jwksV2 jwksV1 kid ≠ none
    ∧ ((∃ e, getKey jwksV2 jwksV1 kid = some (.error e)) ↔
        (sourceFails (jwksV2 kid) = true ∧ sourceFails (jwksV1 kid) = true)) := by
  rcases h2e : (jwksV2 kid).err with _ | e2 <;>
    rcases h2k : (jwksV2 kid).key with _ | k0
  case none.some =>
    have hgk : getKey jwksV2 jwksV1 kid = some (.ok k0) := by
      unfold getKey
      rw [h2e, h2k]
    have hfail : sourceFails (jwksV2 kid) = false := by
      unfold sourceFails
      rw [h2e, h2k]
      rfl
    refine ⟨?_, ?_, ?_, ?_⟩
    · intro k _ hk
      cases hk
      exact ⟨hgk, fun w1 => by unfold getKey; rw [h2e, h2k]⟩
    · intro hcontra
      rw [hfail] at hcontra
      cases hcontra
    · rw [hgk]
      exact Option.some_ne_none _
    · constructor
      · rintro ⟨e, he⟩
        rw [hgk] at he
        cases he
      · rintro ⟨hcontra, _⟩
        rw [hfail] at hcontra
        cases hcontra
  all_goals (
    have hfail : sourceFails (jwksV2 kid) = true := by
      unfold sourceFails
      rw [h2e, h2k]
      rfl
    have hfirst : ∀ (w1 : String → SigningKeyResult),
        getKey jwksV2 w1 kid =
          (match (w1 kid).err with
            | some e2 => some (.error e2)
            | none => match (w1 kid).key with
              | some k2 => some (.ok k2)
              | none => none) := by
      intro w1
      unfold getKey
      rw [h2e, h2k]
    rcases h1e : (jwksV1 kid).err with _ | e1
    · rcases h1k : (jwksV1 kid).key with _ | k1
      · rw [h1e, h1k] at hwf
        simp at hwf
      · have hgk : getKey jwksV2 jwksV1 kid = some (.ok k1) := by
          rw [hfirst jwksV1, h1e, h1k]
        have h1fail : sourceFails (jwksV1 kid) = false := by
          unfold sourceFails
          rw [h1e, h1k]
          rfl
        refine ⟨?_, ?_, ?_, ?_⟩
        · intro k h1 h2
          first
          | exact Option.noConfusion h1
          | exact Option.noConfusion h2
        · intro _ _ k2 hk2
          cases hk2
          exact hgk
        · rw [hgk]
          exact Option.some_ne_none _
        · constructor
          · rintro ⟨e, he⟩
            rw [hgk] at he
            cases he
          · rintro ⟨_, hcontra⟩
            rw [h1fail] at hcontra
            cases hcontra
    · have hgk : getKey jwksV2 jwksV1 kid = some (.error e1) := by
        rw [hfirst jwksV1, h1e]
      have h1fail : sourceFails (jwksV1 kid) = true := by
        unfold sourceFails
        rw [h1e]
        rfl
      refine ⟨?_, ?_, ?_, ?_⟩
      · intro k h1 h2
        first
        | exact Option.noConfusion h1
        | exact Option.noConfusion h2
      · intro _ hcontra
        exact Option.noConfusion hcontra
      · rw [hgk]
        exact Option.some_ne_none _
      · constructor
        · intro _
          exact ⟨hfail, h1fail⟩
        · intro _
          exact ⟨e1, hgk⟩)

/-- C4 witness: with a primary source that errors and a secondary source
that returns a key, resolution succeeds with the secondary's key. -/
theorem c4_key_resolution_fallback_witness :
    getKey (fun _ => ⟨some "v2 down", none⟩) (fun _ => ⟨none, some "K1"⟩) "kid1" =
      some (.ok "K1") :=
  (c4_key_resolution_fallback (fun _ => ⟨some "v2 down", none⟩)
    (fun _ => ⟨none, some "K1"⟩) "kid1" (Or.inr rfl)).2.1 rfl rfl "K1" rfl

/-- C9: a session-id header that arrives as an array is handled exactly like
a plain header holding its first element — the remaining elements are
ignored — and an empty array is handled exactly like an absent header, for
which a fresh session is created and dispatched into. -/
theorem c9_array_header_uses_first (st : SessState) (x : String) (rest : List String) :
    handleMcpRequest st (.arr (x :: rest)) = handleMcpRequest st (.str x)
    ∧ handleMcpRequest st (.arr []) = handleMcpRequest st .undef
    ∧ handleMcpRequest st .undef = ((createSession st).1, .dispatch (createSession st).2) :=
  ⟨rfl, rfl, rfl⟩

theorem data_isEmpty_false_of_ne {s : String} (h : s.data ≠ []) :
    s.data.isEmpty = false := by
  cases he : s.data.isEmpty with
  | false => rfl
  | true => exact absurd (List.isEmpty_iff.mp he) h

/-- C5: once a session has reached Ready — its transport handshake completed
and `onSessionInitialized` registered the server-generated identifier —
presenting that identifier on a subsequent request resolves to the very same
session context object (the same `oid`, i.e. object identity) and dispatches
into its transport, leaving the state untouched. -/
theorem c5_ready_roundtrip (st : SessState) (oid : Nat) (sid : String)
    (hsid : sid.data ≠ []) :
    handleMcpRequest (onSessionInitialized st oid sid) (.str sid) =
      (onSessionInitialized st oid sid, .dispatch oid) := by
  have hne : sid.data.isEmpty = false := data_isEmpty_false_of_ne hsid
  have hsess : (onSessionInitialized st oid sid).sessions = mapSet st.sessions sid oid := by
    unfold onSessionInitialized
    simp only [hne, Bool.false_eq_true, if_false]
  simp only [handleMcpRequest, normalizeSessionId, jsTruthyStr, hne, Bool.not_false,
    Option.getD_some, if_true, hsess, mapLookup_mapSet_self, Option.isNone_some,
    Bool.and_false, Bool.false_eq_true, if_false]

/-- C5 witness: a concrete created-then-initialized session with identifier
`s-1` resolves back to context 0 and is dispatched into. -/
theorem c5_ready_roundtrip_witness :
    handleMcpRequest (onSessionInitialized (createSession emptySessState).1 0 "s-1")
        (.str "s-1") =
      (onSessionInitialized (createSession emptySessState).1 0 "s-1", .dispatch 0) :=
  c5_ready_roundtrip (createSession emptySessState).1 0 "s-1" (by decide)

theorem ctxId_set_sessions (st : SessState) (m : List (String × Nat)) (oid : Nat) :
    ctxId { st with sessions := m } oid = ctxId st oid := rfl

theorem closeSignal_eq {st : SessState} {oid : Nat} {sid : String}
    (hctx : ctxId st oid = some (some sid)) (hne : sid.data.isEmpty = false) :
    closeSignal st oid = { st with sessions := mapDelete st.sessions sid } := by
  unfold closeSignal
  rw [hctx]
  show onTransportClose (onSessionClosed st sid) oid = _
  have hclosed : onSessionClosed st sid = { st with sessions := mapDelete st.sessions sid } := by
    unfold onSessionClosed
    simp only [hne, Bool.false_eq_true, if_false]
  rw [hclosed]
  unfold onTransportClose
  rw [ctxId_set_sessions, hctx]
  simp only [hne, Bool.false_eq_true, if_false]
  rw [show mapDelete (mapDelete st.sessions sid) sid = mapDelete st.sessions sid from
    mapDelete_mapDelete st.sessions sid]

/-- C6: for a registered Ready session (context `oid` carrying identifier
`sid`, registered in the map), one delivery of the transport's close signal
removes exactly its own entry from the registry — the length drops by one and
every other identifier still resolves as before — and a second delivery of
the same close signal is a no-op that changes nothing (and, being a total
function, never throws). -/
theorem c6_close_signal_idempotent (st : SessState) (oid : Nat) (sid : String)
    (hsid : sid.data ≠ [])
    (hctx : ctxId st oid = some (some sid))
    (hreg : mapLookup st.sessions sid = some oid)
    (hnd : (st.sessions.map Prod.fst).Nodup) :
    (closeSignal st oid).sessions = mapDelete st.sessions sid
    ∧ (closeSignal st oid).sessions.length + 1 = st.sessions.length
    ∧ (∀ k, k ≠ sid → mapLookup (closeSignal st oid).sessions k = mapLookup st.sessions k)
    ∧ closeSignal (closeSignal st oid) oid = closeSignal st oid := by
  have hne : sid.data.isEmpty = false := data_isEmpty_false_of_ne hsid
  have h1 := closeSignal_eq hctx hne
  refine ⟨by rw [h1], ?_, ?_, ?_⟩
  · rw [h1]
    exact length_mapDelete hreg hnd
  · intro k hk
    rw [h1]
    exact mapLookup_mapDelete_ne st.sessions sid k hk
  · rw [h1]
    have hctx' : ctxId { st with sessions := mapDelete st.sessions sid } oid =
        some (some sid) := hctx
    rw [closeSignal_eq hctx' hne]
    rw [show mapDelete (mapDelete st.sessions sid) sid = mapDelete st.sessions sid from
      mapDelete_mapDelete st.sessions sid]

/-- C6 witness: for the concrete Ready session with identifier `s-1`, the
close signal empties the one-entry registry, and a second close signal is a
no-op. -/
theorem c6_close_signal_idempotent_witness :
    (closeSignal (onSessionInitialized (createSession emptySessState).1 0 "s-1") 0).sessions =
        mapDelete (onSessionInitialized (createSession emptySessState).1 0 "s-1").sessions "s-1"
    ∧ (closeSignal (onSessionInitialized (createSession emptySessState).1 0 "s-1") 0).sessions.length
        + 1 =
        (onSessionInitialized (createSession emptySessState).1 0 "s-1").sessions.length
    ∧ (∀ k, k ≠ "s-1" →
        mapLookup (closeSignal (onSessionInitialized (createSession emptySessState).1 0 "s-1")
          0).sessions k =
        mapLookup (onSessionInitialized (createSession emptySessState).1 0 "s-1").sessions k)
    ∧ closeSignal (closeSignal (onSessionInitialized (createSession emptySessState).1 0 "s-1") 0)
          0 =
        closeSignal (onSessionInitialized (createSession emptySessState).1 0 "s-1") 0 :=
  c6_close_signal_idempotent (onSessionInitialized (createSession emptySessState).1 0 "s-1")
    0 "s-1" (by decide) (by decide) (by decide) (by decide)

/-- C2 counterexample: the request whose session-id header is present but
holds the empty string carries an identifier (the empty string) that is not
present in the (empty) session registry, yet the handler does not answer 404
— it creates a fresh session context and dispatches into it, because the
empty string is falsy in the source's truthiness test. -/
theorem c2_empty_header_counterexample :
    normalizeSessionId (.str "") = some ""
    ∧ mapLookup emptySessState.sessions "" = none
    ∧ handleMcpRequest emptySessState (.str "") =
        ((createSession emptySessState).1, .dispatch 0)
    ∧ handleMcpRequest emptySessState (.str "") ≠
        (emptySessState, .respond ⟨404, sessionNotFoundBody⟩) := by
  refine ⟨rfl, rfl, rfl, ?_⟩
  intro h
  exact McpOutcome.noConfusion (congrArg Prod.snd h)

/-- C2 (amended): a request whose session-id header carries a nonempty
identifier that is not in the session registry is answered with status 404
and the JSON-RPC session-not-found body, with the whole state unchanged (no
session created); moreover no call of the request handler ever writes the
registry map, so a session is registered only by the Ready hook under its
server-generated identifier; and a fresh session is created only when the
normalized header is absent or the empty string. -/
theorem c2_unknown_session_rejected (st : SessState) (h : HeaderValue) (sid : String)
    (hin : normalizeSessionId h = some sid) (hne : sid.data ≠ [])
    (hmiss : mapLookup st.sessions sid = none) :
    handleMcpRequest st h = (st, .respond ⟨404, sessionNotFoundBody⟩)
    ∧ (∀ st2 h2, (handleMcpRequest st2 h2).1.sessions = st2.sessions)
    ∧ (∀ st2 h2, (handleMcpRequest st2 h2).1.contexts ≠ st2.contexts →
        normalizeSessionId h2 = none ∨ normalizeSessionId h2 = some "") := by
  have hne' : sid.data.isEmpty = false := data_isEmpty_false_of_ne hne
  refine ⟨?_, ?_, ?_⟩
  · simp only [handleMcpRequest, hin, jsTruthyStr, hne', Bool.not_false, Option.getD_some,
      if_true, hmiss, Option.isNone_none, Bool.and_true, if_true]
  · intro st2 h2
    simp only [handleMcpRequest]
    repeat' split
    all_goals rfl
  · intro st2 h2 hchanged
    rcases hn : normalizeSessionId h2 with _ | s
    · exact Or.inl rfl
    · right
      cases hes : s.data.isEmpty with
      | true =>
        have hseq : s = "" := String.ext (List.isEmpty_iff.mp hes)
        simp [hn, hseq]
      | false =>
        exfalso
        apply hchanged
        simp only [handleMcpRequest, hn, jsTruthyStr, hes, Bool.not_false, Option.getD_some,
          if_true]
        rcases hl : mapLookup st2.sessions s with _ | oid
        · simp only [Option.isNone_none, Bool.and_true, if_true]
        · simp only [Option.isNone_some, Bool.and_false, Bool.false_eq_true, if_false]

/-- C2 witness: a concrete request with the unknown nonempty identifier
`ghost` against the empty registry is answered 404 with the state unchanged. -/
theorem c2_unknown_session_rejected_witness :
    handleMcpRequest emptySessState (.str "ghost") =
      (emptySessState, .respond ⟨404, sessionNotFoundBody⟩) :=
  (c2_unknown_session_rejected emptySessState (.str "ghost") "ghost" rfl (by decide) rfl).1

/-- C8 counterexample: the configured value `","` for `ALLOWED_SCOPES` is
accepted at startup (it is a plain string), is truthy, and so does not fall
back to the defaults — yet it splits into no items at all, deriving an empty
allowed-scopes set. -/
theorem c8_delimiter_only_counterexample :
    (mkConfig (some ",") none).allowedScopes = [] := rfl

theorem toConfiguredSet_ne_nil {raw : Option String} {fb : List String}
    (hfb : (fb.filter strNonEmpty).map jsToLower ≠ [])
    (hraw : envNamesItem raw) :
    toConfiguredSet raw fb ≠ [] := by
  unfold toConfiguredSet
  rcases raw with _ | s
  · exact jsSetOfList_ne_nil hfb
  · rcases hraw with hnil | ⟨c, hc, hcd⟩
    · have : s.data.isEmpty = true := by rw [hnil]; rfl
      simp only [this, if_true]
      exact jsSetOfList_ne_nil hfb
    · have hne : s.data.isEmpty = false :=
        data_isEmpty_false_of_ne (fun hd => by rw [hd] at hc; cases hc)
      simp only [hne, Bool.false_eq_true, if_false]
      apply jsSetOfList_ne_nil
      rw [show (jsSplitPlus isDelimChar s).filter strNonEmpty = splitTokens isDelimChar s from
        filter_jsSplitPlusChars isDelimChar s.data]
      intro hmap
      rw [List.map_eq_nil_iff] at hmap
      exact tokensOfChars_ne_nil ⟨c, hc, hcd⟩ hmap

/-- C8 (amended): whenever each configured environment value is absent,
empty (both falsy, so the documented defaults populate the set) or contains
at least one character that is not a separator, the derived allowed-scopes
and allowed-roles sets are both non-empty; a configured value consisting
solely of separators, however, derives an empty set. -/
theorem c8_nonempty_policy_sets (sEnv rEnv : Option String)
    (hs : envNamesItem sEnv) (hr : envNamesItem rEnv) :
    (mkConfig sEnv rEnv).allowedScopes ≠ [] ∧ (mkConfig sEnv rEnv).allowedRoles ≠ [] :=
  ⟨toConfiguredSet_ne_nil (by decide) hs, toConfiguredSet_ne_nil (by decide) hr⟩

/-- C8 witness: the configured value `x` and an absent value both derive
non-empty sets. -/
theorem c8_nonempty_policy_sets_witness :
    (mkConfig (some "x") none).allowedScopes ≠ [] ∧
      (mkConfig (some "x") none).allowedRoles ≠ [] :=
  c8_nonempty_policy_sets (some "x") none (Or.inr ⟨'x', by decide, by decide⟩) trivial
